import Mathlib

set_option maxRecDepth 100000

/-!
Verification model of `pyadps/utils/pyreadrdi.py` (PD0 binary ensemble decoder).

A file is a list of byte values (`List Nat`, entries `< 256` for real files);
a missing file is `none : Option (List Nat)`.  Python file semantics are
modelled directly: `read n` at position `p` returns `(f.drop p).take n`
(short reads at end of file return fewer bytes), absolute and relative seeks
are explicit position arithmetic, `int.from_bytes` of at most two bytes is
`le16`.

Numeric conversions follow NumPy 2 scalar semantics (the repository pins no
NumPy version and targets Python 3.12, where a fresh install resolves to
NumPy ≥ 2): converting an out-of-range Python integer with `np.int8` /
`np.int16` / `np.int32` raises `OverflowError`, which inside `fileheader`
is caught by the enclosing `except (ValueError, StructError, OverflowError)`
handler and mapped to `FILE_CORRUPTED`, truncating to the ensembles parsed
so far.  Assigning a `>Q`-unpacked value above `2^63 - 1` into an `int64`
array raises `OverflowError` as on any NumPy version.

Error codes (class `ErrorCode`): 0 SUCCESS, 1 FILE_NOT_FOUND,
2 PERMISSION_DENIED, 3 IO_ERROR, 4 OUT_OF_MEMORY, 5 WRONG_RDIFILE_TYPE,
6 ID_NOT_FOUND, 7 DATATYPE_MISMATCH, 8 FILE_CORRUPTED, 9 VALUE_ERROR,
99 UNKNOWN_ERROR.
-/

/-- Bytes of `f` visible to Python's `f.seek(pos); f.read(n)`. -/
def sliceN (f : List Nat) (pos n : Nat) : List Nat :=
  (f.drop pos).take n

/-- Little-endian value of at most two bytes, as computed by
`int.from_bytes(readbyte, byteorder="little")` on a possibly short read. -/
def le16 : List Nat → Nat
  | [] => 0
  | [a] => a
  | a :: b :: _ => a + 256 * b

/-- Successive little-endian 16-bit values of a byte list, as computed by
`unpack("H" * n, dbyte)` (the caller guarantees an even length). -/
def lePairs : List Nat → List Nat
  | a :: b :: rest => (a + 256 * b) :: lePairs rest
  | _ => []

/-- Result record of `fileheader`: the five index arrays, the ensemble
count and the error code. -/
structure FHRes where
  dt : List Nat
  byte : List Nat
  byteskip : List Nat
  addrOff : List (List Nat)
  dataid : List (List Nat)
  ensemble : Nat
  errorCode : Nat
deriving DecidableEq, Repr

/-- Outcome of the fuel-indexed header-scanner loop. -/
inductive FHOut where
  | ok (r : FHRes)
  | fuelOut
deriving DecidableEq, Repr

/-- Accumulated per-ensemble entries of the scanning loop (the arrays
`datatype`, `byte`, `byteskip`, `address_offset`, `dataid` restricted to
fully parsed ensembles, which is what the final truncation
`datatype[0:ensemble]` etc. returns). -/
structure FHAcc where
  dt : List Nat
  byte : List Nat
  byteskip : List Nat
  addrOff : List (List Nat)
  dataid : List (List Nat)
deriving DecidableEq, Repr

/-- Empty accumulator. -/
def FHAcc.empty : FHAcc := ⟨[], [], [], [], []⟩

/-- Result assembled on leaving the loop: the arrays parsed so far with
`ensemble = i` (the count of completed iterations) and the given code. -/
def FHAcc.finish (acc : FHAcc) (code : Nat) : FHRes :=
  ⟨acc.dt, acc.byte, acc.byteskip, acc.addrOff, acc.dataid, acc.dt.length, code⟩

/-- The `(np.array([]), …, 0, code)` early return of `fileheader`. -/
def FHRes.empty (code : Nat) : FHRes := ⟨[], [], [], [], [], 0, code⟩

/-- One ensemble's worth of entries pushed onto the accumulator. -/
def FHAcc.push (acc : FHAcc) (ndt bc bskip : Nat) (offs ids : List Nat) : FHAcc :=
  ⟨acc.dt ++ [ndt], acc.byte ++ [bc], acc.byteskip ++ [bskip],
   acc.addrOff ++ [offs], acc.dataid ++ [ids]⟩

/-- Outcome of one iteration of the scanning loop: either leave the loop
with an assembled result, or continue at the next ensemble. -/
inductive FHStep where
  | stop (r : FHRes)
  | next (bskip : Nat) (ndt : Nat) (acc : FHAcc)
deriving DecidableEq, Repr

/-- One iteration of the scanning loop of `fileheader` (lines 406-495 of
pyreadrdi.py).  `bskip` is the absolute offset of the ensemble being
scanned; `prev` is `none` while scanning the first ensemble and `some n`
afterwards, where `n` is the previous ensemble's `num_data_types`. -/
def fhIter (file : List Nat) (bskip : Nat) (prev : Option Nat)
    (acc : FHAcc) : FHStep :=
  let byt := sliceN file bskip 6
  if byt.length = 0 then
    -- while-condition false: normal exit with the last SUCCESS code
    .stop (acc.finish 0)
  else if byt.length < 6 then
    -- unpack("<BBHBB", byt) raises struct.error, caught by the outer
    -- handler: FILE_CORRUPTED, ensembles reset to i
    .stop (acc.finish 8)
  else
    let hid0 := byt.getD 0 0
    let hid1 := byt.getD 1 0
    let hid2 := byt.getD 2 0 + 256 * byt.getD 3 0
    let hid4 := byt.getD 5 0
    if 128 ≤ hid0 then
      -- np.int8(hid[0]) overflows (NumPy 2): caught, FILE_CORRUPTED
      .stop (acc.finish 8)
    else if 32768 ≤ hid2 then
      -- np.int16(hid[2]) overflows (NumPy 2): caught, FILE_CORRUPTED
      .stop (acc.finish 8)
    else
      let dbyte := sliceN file (bskip + 6) (2 * hid4)
      if dbyte.length ≠ 2 * hid4 then
        -- safe_read returned (None, FILE_CORRUPTED): return empty arrays
        -- when on the first ensemble, break otherwise
        match prev with
        | none => .stop (FHRes.empty 8)
        | some _ => .stop (acc.finish 8)
      else
        let idCheck : FHStep → FHStep := fun cont =>
          if ¬ (hid0 = 127 ∧ hid1 = 127) then
            match prev with
            | none => .stop (FHRes.empty 5)   -- WRONG_RDIFILE_TYPE
            | some _ => .stop (acc.finish 6)  -- ID_NOT_FOUND, break
          else
            match prev with
            | some p =>
              if hid4 ≠ p then
                .stop (acc.finish 7)          -- DATATYPE_MISMATCH, break
              else cont
            | none => cont
        idCheck
          (let offs := lePairs dbyte
           let ids := offs.map (fun o => le16 (sliceN file (bskip + o) 2))
           let bskip' := bskip + hid2 + 2
           -- np.int32(bskip) overflows for bskip ≥ 2^31 (NumPy 2); the
           -- OverflowError is raised after address_offset and dataid were
           -- appended but before byteskip was
           if 2 ^ 31 ≤ bskip' then
             .stop ⟨acc.dt, acc.byte, acc.byteskip, acc.addrOff ++ [offs],
                    acc.dataid ++ [ids], acc.dt.length, 8⟩
           else
             .next bskip' hid4 (acc.push hid4 hid2 bskip' offs ids))

/-- The scanning loop: iterate `fhIter`.  `fuel` bounds the number of
iterations; the loop advances `bskip` by at least 2 per iteration, so
`file.length + 1` units are always enough (proved below). -/
def fhGo (file : List Nat) : Nat → Nat → Option Nat → FHAcc → FHOut
  | 0, _, _, _ => .fuelOut
  | fuel + 1, bskip, prev, acc =>
    match fhIter file bskip prev acc with
    | .stop r => .ok r
    | .next bskip' ndt acc' => fhGo file fuel bskip' (some ndt) acc'

/-- `fileheader(rdi_file)`: open the file (a missing file yields the empty
result with FILE_NOT_FOUND) and run the scanning loop from offset 0. -/
def fileheader (fs : Option (List Nat)) : FHOut :=
  match fs with
  | none => .ok (FHRes.empty 1)
  | some f => fhGo f (f.length + 1) 0 none FHAcc.empty

/-- Total projection of `fileheader` (the loop never exhausts its fuel, so
the default is never used). -/
def fhSafe (fs : Option (List Nat)) : FHRes :=
  match fileheader fs with
  | .ok r => r
  | .fuelOut => FHRes.empty 99

/-! ## Well-formed PD0 framing (spec §6, as quoted by the claims)

A well-formed file is a concatenation of ensembles; each ensemble starts
with `header_id = source_id = 0x7F`, declares its `byte_count` (little
endian at offsets 2-3) and `num_data_types` (offset 5), occupies exactly
`byte_count + 2` bytes (the `+2` being the trailing checksum), has room for
its offset table, and all ensembles declare the same `num_data_types`. -/

/-- Declared `byte_count` of an ensemble's bytes. -/
def bcOf (e : List Nat) : Nat := e.getD 2 0 + 256 * e.getD 3 0

/-- Declared `num_data_types` of an ensemble's bytes. -/
def ndtOf (e : List Nat) : Nat := e.getD 5 0

/-- Offset table of an ensemble, as `fileheader` unpacks it. -/
def offsOf (e : List Nat) : List Nat := lePairs (sliceN e 6 (2 * ndtOf e))

/-- Data ids recorded for an ensemble starting at absolute offset `b` of
file `f`: for each table entry, the little-endian value of the (up to) two
bytes at `b + offset`. -/
def idsRow (f : List Nat) (b : Nat) (e : List Nat) : List Nat :=
  (offsOf e).map fun o => le16 (sliceN f (b + o) 2)

/-- One ensemble framed per the §6 layout. -/
def EnsFramed (e : List Nat) : Prop :=
  e.getD 0 0 = 127 ∧ e.getD 1 0 = 127 ∧ e.length = bcOf e + 2 ∧
    6 + 2 * ndtOf e ≤ bcOf e ∧ ∀ b ∈ e, b < 256

instance (e : List Nat) : Decidable (EnsFramed e) := by
  unfold EnsFramed; infer_instance

/-- A well-formed PD0 file of `N` ensembles: a concatenation of framed
ensembles with a consistent `num_data_types`. -/
def WellFormed (f : List Nat) (N : Nat) : Prop :=
  ∃ ess : List (List Nat), ∃ n0 : Nat,
    f = ess.flatten ∧ ess.length = N ∧
    ∀ e ∈ ess, EnsFramed e ∧ ndtOf e = n0

/-- Well-formed with every `byte_count` below `2^15` (the amended claim:
`fileheader` stores byte counts in an `int16` array, and NumPy 2 raises on
conversion of larger values). -/
def WellFormedSmall (f : List Nat) (N : Nat) : Prop :=
  ∃ ess : List (List Nat), ∃ n0 : Nat,
    f = ess.flatten ∧ ess.length = N ∧
    ∀ e ∈ ess, EnsFramed e ∧ bcOf e < 32768 ∧ ndtOf e = n0

/-- `byteskip` values produced for successive ensembles starting at
absolute offset `b`: the running totals of ensemble sizes. -/
def skips (b : Nat) : List (List Nat) → List Nat
  | [] => []
  | e :: es => (b + e.length) :: skips (b + e.length) es

/-- `dataid` rows produced for successive ensembles starting at absolute
offset `b` of file `f`. -/
def dataRows (f : List Nat) (b : Nat) : List (List Nat) → List (List Nat)
  | [] => []
  | e :: es => idsRow f b e :: dataRows f (b + e.length) es

/-- Accumulator after scanning the ensembles `ess` starting at offset `b`. -/
def FHAcc.pushAll (acc : FHAcc) (f : List Nat) (b : Nat)
    (ess : List (List Nat)) : FHAcc :=
  ⟨acc.dt ++ ess.map ndtOf, acc.byte ++ ess.map bcOf,
   acc.byteskip ++ skips b ess, acc.addrOff ++ ess.map offsOf,
   acc.dataid ++ dataRows f b ess⟩

/-! ### Slice arithmetic -/

theorem sliceN_zero_of_ge (f : List Nat) (p n : Nat) (h : f.length ≤ p) :
    sliceN f p n = [] := by
  simp [sliceN, List.drop_eq_nil_iff.2 h]

theorem sliceN_shift (a b : List Nat) (k n : Nat) :
    sliceN (a ++ b) (a.length + k) n = sliceN b k n := by
  unfold sliceN
  rw [← List.drop_drop, List.drop_left]

theorem sliceN_inner (e r : List Nat) (k n : Nat) (h : k + n ≤ e.length) :
    sliceN (e ++ r) k n = sliceN e k n := by
  unfold sliceN
  rw [List.drop_append_of_le_length (by omega)]
  rw [List.take_append_of_le_length (by simp; omega)]

theorem sliceN_length_of_le (f : List Nat) (p n : Nat)
    (h : p + n ≤ f.length) : (sliceN f p n).length = n := by
  simp [sliceN]; omega

theorem sliceN_getD (f : List Nat) (p n m : Nat) (hm : m < n) :
    (sliceN f p n).getD m 0 = (f.drop p).getD m 0 := by
  simp [sliceN, List.getD_eq_getElem?_getD, List.getElem?_take_of_lt hm]

theorem getD_take_lt (l : List Nat) (n m : Nat) (h : m < n) :
    (l.take n).getD m 0 = l.getD m 0 := by
  simp [List.getD_eq_getElem?_getD, List.getElem?_take_of_lt h]

/-! ### One well-formed scanning step -/

theorem fhIter_wf (f done e rest : List Nat) (prev : Option Nat) (acc : FHAcc)
    (hf : f = done ++ (e ++ rest)) (he : EnsFramed e) (hbc : bcOf e < 32768)
    (hflen : f.length < 2 ^ 31)
    (hprev : prev = none ∨ prev = some (ndtOf e)) :
    fhIter f done.length prev acc =
      .next (done.length + e.length) (ndtOf e)
        (acc.push (ndtOf e) (bcOf e) (done.length + e.length) (offsOf e)
          (idsRow f done.length e)) := by
  obtain ⟨h0, h1, hlen, htab, -⟩ := he
  have he6 : 6 + 2 * ndtOf e ≤ e.length := by omega
  have hfl : f.length = done.length + (e.length + rest.length) := by
    subst hf; simp
  have hcont : bcOf e = e.getD 2 0 + 256 * e.getD 3 0 := rfl
  have hnd : ndtOf e = e.getD 5 0 := rfl
  have hEq : sliceN f done.length 6 = e.take 6 := by
    have hsh := sliceN_shift done (e ++ rest) 0 6
    rw [Nat.add_zero] at hsh
    rw [hf, hsh]
    unfold sliceN
    rw [List.drop_zero, List.take_append_of_le_length (by omega)]
  have hdb : sliceN f (done.length + 6) (2 * ndtOf e) =
      sliceN e 6 (2 * ndtOf e) := by
    subst hf
    rw [sliceN_shift done (e ++ rest) 6 (2 * ndtOf e)]
    exact sliceN_inner e rest 6 (2 * ndtOf e) (by omega)
  have hdblen : (sliceN e 6 (2 * ndtOf e)).length = 2 * ndtOf e :=
    sliceN_length_of_le e 6 (2 * ndtOf e) (by omega)
  have hb2 : done.length + bcOf e + 2 = done.length + e.length := by omega
  have hguard : ¬ (2 ^ 31 ≤ done.length + bcOf e + 2) := by omega
  rcases hprev with hp | hp <;> subst hp <;>
    (unfold fhIter
     rw [hEq]
     simp only [List.length_take,
       getD_take_lt e 6 0 (by omega), getD_take_lt e 6 1 (by omega),
       getD_take_lt e 6 2 (by omega), getD_take_lt e 6 3 (by omega),
       getD_take_lt e 6 5 (by omega), h0, h1, ← hnd, ← hcont, hdb, hdblen]
     rw [if_neg (by omega), if_neg (by omega), if_neg (by omega),
       if_neg (by omega), if_neg (by omega), if_neg (by simp)])
  · rw [if_neg hguard, hb2]
    rfl
  · rw [if_neg (by simp), if_neg hguard, hb2]
    rfl

theorem FHAcc.pushAll_nil (acc : FHAcc) (f : List Nat) (b : Nat) :
    acc.pushAll f b [] = acc := by
  simp [FHAcc.pushAll, skips, dataRows]

theorem FHAcc.pushAll_cons (acc : FHAcc) (f : List Nat) (b : Nat)
    (e : List Nat) (es : List (List Nat)) :
    acc.pushAll f b (e :: es) =
      (acc.push (ndtOf e) (bcOf e) (b + e.length) (offsOf e)
        (idsRow f b e)).pushAll f (b + e.length) es := by
  simp [FHAcc.pushAll, FHAcc.push, skips, dataRows]

theorem fhGo_stop (file : List Nat) (fuel bskip : Nat) (prev : Option Nat)
    (acc : FHAcc) (r : FHRes) (h : fhIter file bskip prev acc = .stop r) :
    fhGo file (fuel + 1) bskip prev acc = .ok r := by
  conv_lhs => rw [fhGo]
  rw [h]

theorem fhGo_next (file : List Nat) (fuel bskip : Nat) (prev : Option Nat)
    (acc : FHAcc) (b n : Nat) (a : FHAcc)
    (h : fhIter file bskip prev acc = .next b n a) :
    fhGo file (fuel + 1) bskip prev acc = fhGo file fuel b (some n) a := by
  conv_lhs => rw [fhGo]
  rw [h]

theorem fhIter_eof (f : List Nat) (bskip : Nat) (prev : Option Nat)
    (acc : FHAcc) (h : f.length ≤ bskip) :
    fhIter f bskip prev acc = .stop (acc.finish 0) := by
  unfold fhIter
  rw [sliceN_zero_of_ge f bskip 6 h]
  simp

theorem fhGo_eof (f : List Nat) (fuel bskip : Nat) (prev : Option Nat)
    (acc : FHAcc) (h : f.length ≤ bskip) :
    fhGo f (fuel + 1) bskip prev acc = .ok (acc.finish 0) :=
  fhGo_stop f fuel bskip prev acc _ (fhIter_eof f bskip prev acc h)

theorem fhGo_wfseg (ess : List (List Nat)) :
    ∀ (f done tail2 : List Nat) (n0 : Nat) (prev : Option Nat) (acc : FHAcc)
      (fuel : Nat),
    f = done ++ (ess.flatten ++ tail2) →
    (∀ e ∈ ess, EnsFramed e ∧ bcOf e < 32768 ∧ ndtOf e = n0) →
    f.length < 2 ^ 31 →
    (prev = none ∨ prev = some n0) →
    fhGo f (fuel + ess.length) done.length prev acc =
      fhGo f fuel (done.length + ess.flatten.length)
        (if ess.isEmpty then prev else some n0)
        (acc.pushAll f done.length ess) := by
  induction ess with
  | nil =>
    intro f done tail2 n0 prev acc fuel hf h hlen hprev
    simp [FHAcc.pushAll_nil]
  | cons e es ih =>
    intro f done tail2 n0 prev acc fuel hf h hlen hprev
    have he := h e (by simp)
    have hstep := fhIter_wf f done e (es.flatten ++ tail2) prev acc
      (by rw [hf]; simp [List.flatten_cons]) he.1 he.2.1 hlen
      (by rcases hprev with hp | hp
          · exact Or.inl hp
          · exact Or.inr (by rw [hp, he.2.2]))
    have hfuelEq : fuel + (e :: es).length = (fuel + es.length) + 1 := by
      simp; omega
    rw [hfuelEq]
    rw [fhGo_next f (fuel + es.length) done.length prev acc _ _ _ hstep]
    have hdone : done.length + e.length = (done ++ e).length := by simp
    rw [hdone]
    rw [ih f (done ++ e) tail2 n0 (some (ndtOf e))
      (acc.push (ndtOf e) (bcOf e) (done ++ e).length (offsOf e)
        (idsRow f done.length e))
      fuel (by rw [hf]; simp [List.flatten_cons]) (fun x hx => h x (by simp [hx]))
      hlen (Or.inr (by rw [he.2.2]))]
    rw [FHAcc.pushAll_cons, ← hdone]
    rw [he.2.2, ite_self]
    simp only [List.flatten_cons, List.length_append, List.isEmpty_cons,
      Bool.false_eq_true, if_false, ← Nat.add_assoc]

theorem skips_length (b : Nat) (ess : List (List Nat)) :
    (skips b ess).length = ess.length := by
  induction ess generalizing b with
  | nil => rfl
  | cons e es ih => simp [skips, ih]

theorem dataRows_length (f : List Nat) (b : Nat) (ess : List (List Nat)) :
    (dataRows f b ess).length = ess.length := by
  induction ess generalizing b with
  | nil => rfl
  | cons e es ih => simp [dataRows, ih]

theorem skips_gt (b : Nat) (ess : List (List Nat))
    (h : ∀ e ∈ ess, 1 ≤ e.length) : ∀ x ∈ skips b ess, b < x := by
  induction ess generalizing b with
  | nil => intro x hx; simp [skips] at hx
  | cons e es ih =>
    intro x hx
    rw [skips] at hx
    rcases List.mem_cons.1 hx with hx | hx
    · have := h e (by simp); omega
    · have h1 := h e (by simp)
      have := ih (b + e.length) (fun x hx => h x (by simp [hx])) x hx
      omega

theorem skips_pairwise (b : Nat) (ess : List (List Nat))
    (h : ∀ e ∈ ess, 1 ≤ e.length) :
    (skips b ess).Pairwise (· < ·) := by
  induction ess generalizing b with
  | nil => exact List.Pairwise.nil
  | cons e es ih =>
    rw [skips]
    refine List.Pairwise.cons ?_ (ih (b + e.length) (fun x hx => h x (by simp [hx])))
    intro x hx
    exact skips_gt (b + e.length) es (fun x hx => h x (by simp [hx])) x hx

theorem len_le_flatten (ess : List (List Nat))
    (h : ∀ e ∈ ess, 1 ≤ e.length) : ess.length ≤ ess.flatten.length := by
  induction ess with
  | nil => simp
  | cons e es ih =>
    have h1 := h e (by simp)
    have h2 := ih (fun x hx => h x (by simp [hx]))
    simp only [List.flatten_cons, List.length_append, List.length_cons]
    omega

/-- Full characterization of `fileheader` on a well-formed file given by its
list of ensembles (all with `byte_count < 2^15` and the file within NumPy's
int32 range): every ensemble is parsed, the error code is SUCCESS, and the
five index arrays hold the framing data as laid out in §6. -/
theorem fileheader_wf_run (ess : List (List Nat)) (n0 : Nat)
    (h : ∀ e ∈ ess, EnsFramed e ∧ bcOf e < 32768 ∧ ndtOf e = n0)
    (hlen : ess.flatten.length < 2 ^ 31) :
    fileheader (some ess.flatten) =
      .ok ⟨ess.map ndtOf, ess.map bcOf, skips 0 ess, ess.map offsOf,
           dataRows ess.flatten 0 ess, ess.length, 0⟩ := by
  have hge : ∀ e ∈ ess, 1 ≤ e.length := by
    intro e he
    have := (h e he).1.2.2.1
    omega
  have hle : ess.length ≤ ess.flatten.length := len_le_flatten ess hge
  have hopen : fileheader (some ess.flatten) =
      fhGo ess.flatten (ess.flatten.length + 1) 0 none FHAcc.empty := rfl
  have hfuel : ess.flatten.length + 1 =
      (ess.flatten.length - ess.length + 1) + ess.length := by omega
  rw [hopen, hfuel]
  have hpre := fhGo_wfseg ess ess.flatten [] [] n0 none FHAcc.empty
    (ess.flatten.length - ess.length + 1) (by simp) h hlen (Or.inl rfl)
  simp only [List.length_nil] at hpre
  rw [hpre]
  rw [fhGo_eof ess.flatten (ess.flatten.length - ess.length) (0 + ess.flatten.length) _ _ (by omega)]
  simp [FHAcc.pushAll, FHAcc.finish, FHAcc.empty]

/-- C1 (amended): for every well-formed PD0 file of N ensembles whose
byte counts are all below 2^15 (and whose length is within NumPy's int32
range), `fileheader` returns ensemble = N and error SUCCESS, every index
array has length N, and `byteskip` is strictly increasing. -/
theorem fileheader_wellformed_parses_all (f : List Nat) (N : Nat)
    (h : WellFormedSmall f N) (hflen : f.length < 2 ^ 31) :
    ∃ r, fileheader (some f) = .ok r ∧ r.ensemble = N ∧ r.errorCode = 0 ∧
      r.dt.length = N ∧ r.byte.length = N ∧ r.byteskip.length = N ∧
      r.addrOff.length = N ∧ r.dataid.length = N ∧
      r.byteskip.Pairwise (· < ·) := by
  obtain ⟨ess, n0, hfl, hN, hall⟩ := h
  subst hfl
  subst hN
  have hge : ∀ e ∈ ess, 1 ≤ e.length := by
    intro e he
    have := (hall e he).1.2.2.1
    omega
  refine ⟨_, fileheader_wf_run ess n0 hall hflen, ?_⟩
  refine ⟨rfl, rfl, by simp, by simp, skips_length 0 ess, by simp,
    dataRows_length ess.flatten 0 ess, ?_⟩
  exact skips_pairwise 0 ess hge

/-- A well-formed single-ensemble file whose declared byte count is
0x8000 = 32768: header `7F 7F 00 80 00 00` (byte_count = 32768,
num_data_types = 0) followed by 32764 padding bytes. -/
def bigEns : List Nat :=
  127 :: 127 :: 0 :: 128 :: 0 :: 0 :: (List.replicate 32762 0 ++ [126, 1])

theorem fileheader_some (f : List Nat) :
    fileheader (some f) = fhGo f (f.length + 1) 0 none FHAcc.empty := rfl

theorem fhSafe_of_ok (fs : Option (List Nat)) (r : FHRes)
    (h : fileheader fs = .ok r) : fhSafe fs = r := by
  unfold fhSafe
  rw [h]

theorem flatten_singleton (l : List Nat) : [l].flatten = l := by simp

theorem bigEns_length : bigEns.length = 32770 := by
  show (127 :: 127 :: 0 :: 128 :: 0 :: 0 ::
    (List.replicate 32762 0 ++ [126, 1])).length = 32770
  rw [List.length_cons, List.length_cons, List.length_cons, List.length_cons,
    List.length_cons, List.length_cons, List.length_append,
    List.length_replicate]
  norm_num [List.length]

theorem bigEns_bc : bcOf bigEns = 32768 := rfl

theorem bigEns_ndt : ndtOf bigEns = 0 := rfl

theorem bigEns_framed : EnsFramed bigEns := by
  refine ⟨rfl, rfl, ?_, ?_, ?_⟩
  · rw [bigEns_length, bigEns_bc]
  · rw [bigEns_bc, bigEns_ndt]
    norm_num
  · intro b hb
    simp only [bigEns, List.mem_cons, List.mem_append, List.mem_replicate,
      List.not_mem_nil, or_false] at hb
    rcases hb with h | h | h | h | h | h | ⟨-, h⟩ | h | h <;> omega

theorem fhIter_bigEns :
    fhIter bigEns 0 none FHAcc.empty = .stop (FHAcc.empty.finish 8) := by
  have hbyt : sliceN bigEns 0 6 = [127, 127, 0, 128, 0, 0] := rfl
  unfold fhIter
  rw [hbyt]
  norm_num

/-- C1 counterexample: `bigEns` is a well-formed file of one ensemble (its
byte_count 0x8000 is a legal u16), yet `fileheader` returns ensemble = 0
and error FILE_CORRUPTED (8) instead of ensemble = 1 with SUCCESS, because
`np.int16(32768)` overflows when the byte count is stored. -/
theorem fileheader_bigcount_cex :
    WellFormed bigEns 1 ∧ (fhSafe (some bigEns)).ensemble = 0 ∧
      (fhSafe (some bigEns)).errorCode = 8 := by
  have hrun : fileheader (some bigEns) = .ok (FHAcc.empty.finish 8) := by
    rw [fileheader_some, bigEns_length]
    exact fhGo_stop bigEns 32770 0 none FHAcc.empty _ fhIter_bigEns
  rw [fhSafe_of_ok _ _ hrun]
  refine ⟨⟨[bigEns], 0, (flatten_singleton bigEns).symm, rfl, ?_⟩, rfl, rfl⟩
  intro e he
  simp only [List.mem_singleton] at he
  subst he
  exact ⟨bigEns_framed, rfl⟩

/-- A 59-byte Fixed Leader sub-record: id 0, beams = 1 (offset 8),
cells = 1 (offset 9), all other fields zero. -/
def fl59 : List Nat :=
  [0, 0, 0, 0, 0, 0, 0, 0, 1, 1] ++ List.replicate 49 0

/-- A well-formed 69-byte ensemble: header `7F 7F 43 00 00 01`
(byte_count = 67, one data type), offset table `[8]`, the Fixed Leader at
offset 8, and a 2-byte checksum field. -/
def goodEns : List Nat :=
  [127, 127, 67, 0, 0, 1] ++ [8, 0] ++ fl59 ++ [76, 1]

/-- Two well-formed ensembles in a row. -/
def twoGood : List Nat := goodEns ++ goodEns

theorem fileheader_wellformed_parses_all_witness :
    WellFormedSmall twoGood 2 ∧ twoGood.length < 2 ^ 31 ∧
      (∃ r, fileheader (some twoGood) = .ok r ∧ r.ensemble = 2 ∧
        r.errorCode = 0 ∧ r.dt.length = 2 ∧ r.byte.length = 2 ∧
        r.byteskip.length = 2 ∧ r.addrOff.length = 2 ∧ r.dataid.length = 2 ∧
        r.byteskip.Pairwise (· < ·)) := by
  have hwf : WellFormedSmall twoGood 2 :=
    ⟨[goodEns, goodEns], 1, by simp [twoGood], rfl, by decide⟩
  have hlen : twoGood.length < 2 ^ 31 := by decide
  exact ⟨hwf, hlen, fileheader_wellformed_parses_all twoGood 2 hwf hlen⟩

/-- The five accumulator arrays stay the same length. -/
def AccInv (acc : FHAcc) : Prop :=
  acc.byte.length = acc.dt.length ∧ acc.byteskip.length = acc.dt.length ∧
    acc.addrOff.length = acc.dt.length ∧ acc.dataid.length = acc.dt.length

theorem AccInv.empty : AccInv FHAcc.empty := ⟨rfl, rfl, rfl, rfl⟩

theorem AccInv.push (acc : FHAcc) (h : AccInv acc) (n bc b : Nat)
    (offs ids : List Nat) : AccInv (acc.push n bc b offs ids) := by
  obtain ⟨h1, h2, h3, h4⟩ := h
  refine ⟨?_, ?_, ?_, ?_⟩ <;> simp [FHAcc.push] <;> omega

/-- Any iteration, on a file inside NumPy's int32 range, either stops with
one of the loop's assembled results (terminating codes 0, 5, 6, 7, 8) or
advances the ensemble offset by at least 2 within the file. -/
theorem fhIter_shape (f : List Nat) (bskip : Nat) (prev : Option Nat)
    (acc : FHAcc) (hflen : f.length + 32770 < 2 ^ 31) :
    (∃ r, fhIter f bskip prev acc = .stop r ∧
      (r = acc.finish 0 ∨ r = acc.finish 8 ∨ r = acc.finish 6 ∨
        r = acc.finish 7 ∨ r = FHRes.empty 8 ∨ r = FHRes.empty 5)) ∨
    (∃ n bc b offs ids, fhIter f bskip prev acc = .next b n (acc.push n bc b offs ids) ∧
      bskip + 2 ≤ b ∧ bskip + 6 ≤ f.length) := by
  have hby : (sliceN f bskip 6).length = min 6 (f.length - bskip) := by
    simp [sliceN]
  unfold fhIter
  rcases prev with - | p
  all_goals dsimp only
  case none =>
    by_cases h1 : (sliceN f bskip 6).length = 0
    · rw [if_pos h1]; exact Or.inl ⟨_, rfl, by tauto⟩
    rw [if_neg h1]
    by_cases h2 : (sliceN f bskip 6).length < 6
    · rw [if_pos h2]; exact Or.inl ⟨_, rfl, by tauto⟩
    rw [if_neg h2]
    by_cases h3 : 128 ≤ (sliceN f bskip 6).getD 0 0
    · rw [if_pos h3]; exact Or.inl ⟨_, rfl, by tauto⟩
    rw [if_neg h3]
    by_cases h4 : 32768 ≤ (sliceN f bskip 6).getD 2 0 + 256 * (sliceN f bskip 6).getD 3 0
    · rw [if_pos h4]; exact Or.inl ⟨_, rfl, by tauto⟩
    rw [if_neg h4]
    by_cases h5 : (sliceN f (bskip + 6) (2 * (sliceN f bskip 6).getD 5 0)).length ≠
        2 * (sliceN f bskip 6).getD 5 0
    · rw [if_pos h5]; exact Or.inl ⟨_, rfl, by tauto⟩
    rw [if_neg h5]
    by_cases h6 : ¬ ((sliceN f bskip 6).getD 0 0 = 127 ∧ (sliceN f bskip 6).getD 1 0 = 127)
    · rw [if_pos h6]; exact Or.inl ⟨_, rfl, by tauto⟩
    rw [if_neg h6]
    rw [if_neg (show ¬ (2 ^ 31 ≤ bskip + ((sliceN f bskip 6).getD 2 0 +
        256 * (sliceN f bskip 6).getD 3 0) + 2) by omega)]
    exact Or.inr ⟨_, _, _, _, _, rfl, by omega, by omega⟩
  case some =>
    by_cases h1 : (sliceN f bskip 6).length = 0
    · rw [if_pos h1]; exact Or.inl ⟨_, rfl, by tauto⟩
    rw [if_neg h1]
    by_cases h2 : (sliceN f bskip 6).length < 6
    · rw [if_pos h2]; exact Or.inl ⟨_, rfl, by tauto⟩
    rw [if_neg h2]
    by_cases h3 : 128 ≤ (sliceN f bskip 6).getD 0 0
    · rw [if_pos h3]; exact Or.inl ⟨_, rfl, by tauto⟩
    rw [if_neg h3]
    by_cases h4 : 32768 ≤ (sliceN f bskip 6).getD 2 0 + 256 * (sliceN f bskip 6).getD 3 0
    · rw [if_pos h4]; exact Or.inl ⟨_, rfl, by tauto⟩
    rw [if_neg h4]
    by_cases h5 : (sliceN f (bskip + 6) (2 * (sliceN f bskip 6).getD 5 0)).length ≠
        2 * (sliceN f bskip 6).getD 5 0
    · rw [if_pos h5]; exact Or.inl ⟨_, rfl, by tauto⟩
    rw [if_neg h5]
    by_cases h6 : ¬ ((sliceN f bskip 6).getD 0 0 = 127 ∧ (sliceN f bskip 6).getD 1 0 = 127)
    · rw [if_pos h6]; exact Or.inl ⟨_, rfl, by tauto⟩
    rw [if_neg h6]
    by_cases h7 : (sliceN f bskip 6).getD 5 0 ≠ p
    · rw [if_pos h7]; exact Or.inl ⟨_, rfl, by tauto⟩
    rw [if_neg h7]
    rw [if_neg (show ¬ (2 ^ 31 ≤ bskip + ((sliceN f bskip 6).getD 2 0 +
        256 * (sliceN f bskip 6).getD 3 0) + 2) by omega)]
    exact Or.inr ⟨_, _, _, _, _, rfl, by omega, by omega⟩

theorem fhGo_total (f : List Nat) (hflen : f.length + 32770 < 2 ^ 31) :
    ∀ (fuel bskip : Nat) (prev : Option Nat) (acc : FHAcc),
    f.length < bskip + 2 * fuel → 0 < fuel → AccInv acc →
    ∃ r, fhGo f fuel bskip prev acc = .ok r ∧
      r.dt.length = r.ensemble ∧ r.byte.length = r.ensemble ∧
      r.byteskip.length = r.ensemble ∧ r.addrOff.length = r.ensemble ∧
      r.dataid.length = r.ensemble ∧
      (r.errorCode = 0 ∨ r.errorCode = 5 ∨ r.errorCode = 6 ∨
        r.errorCode = 7 ∨ r.errorCode = 8) := by
  intro fuel
  induction fuel with
  | zero => intro bskip prev acc hlt hpos hacc; omega
  | succ fuel ih =>
    intro bskip prev acc hlt hpos hacc
    obtain ⟨hb, hs, ha, hd⟩ := hacc
    rcases fhIter_shape f bskip prev acc hflen with
      ⟨r, hstep, hr⟩ | ⟨n, bc, b, offs, ids, hstep, hb2, hb6⟩
    · refine ⟨r, fhGo_stop f fuel bskip prev acc r hstep, ?_⟩
      rcases hr with h | h | h | h | h | h <;> subst h <;>
        simp [FHAcc.finish, FHRes.empty, hb, hs, ha, hd]
    · rw [fhGo_next f fuel bskip prev acc b n _ hstep]
      exact ih b (some n) (acc.push n bc b offs ids) (by omega) (by omega)
        (AccInv.push acc ⟨hb, hs, ha, hd⟩ n bc b offs ids)

/-- C2: on any byte content whatsoever (any list of bytes, within NumPy's
int32 file-offset range), `fileheader` never raises: it terminates with a
result whose five index arrays all have length equal to the returned
ensemble count (the best-effort prefix of parsed ensembles) and whose
error code is one of the terminating codes 0, 5, 6, 7, 8. -/
theorem fileheader_total_on_malformed (fs : List Nat)
    (hflen : fs.length + 32770 < 2 ^ 31) :
    ∃ r, fileheader (some fs) = .ok r ∧
      r.dt.length = r.ensemble ∧ r.byte.length = r.ensemble ∧
      r.byteskip.length = r.ensemble ∧ r.addrOff.length = r.ensemble ∧
      r.dataid.length = r.ensemble ∧
      (r.errorCode = 0 ∨ r.errorCode = 5 ∨ r.errorCode = 6 ∨
        r.errorCode = 7 ∨ r.errorCode = 8) := by
  rw [fileheader_some]
  exact fhGo_total fs hflen (fs.length + 1) 0 none FHAcc.empty
    (by omega) (by omega) AccInv.empty

theorem fileheader_total_on_malformed_witness :
    (([1, 2, 3] : List Nat).length + 32770 < 2 ^ 31) ∧
      ∃ r, fileheader (some [1, 2, 3]) = .ok r ∧
        r.dt.length = r.ensemble ∧ r.byte.length = r.ensemble ∧
        r.byteskip.length = r.ensemble ∧ r.addrOff.length = r.ensemble ∧
        r.dataid.length = r.ensemble ∧
        (r.errorCode = 0 ∨ r.errorCode = 5 ∨ r.errorCode = 6 ∨
          r.errorCode = 7 ∨ r.errorCode = 8) :=
  ⟨by decide, fileheader_total_on_malformed [1, 2, 3] (by decide)⟩

theorem fhIter_mismatch (f done tl : List Nat) (n0 : Nat) (acc : FHAcc)
    (hf : f = done ++ tl) (h6 : 6 ≤ tl.length)
    (h0 : tl.getD 0 0 = 127) (h1 : tl.getD 1 0 = 127)
    (hbc : tl.getD 2 0 + 256 * tl.getD 3 0 < 32768)
    (htab : 6 + 2 * tl.getD 5 0 ≤ tl.length)
    (hndt : tl.getD 5 0 ≠ n0) :
    fhIter f done.length (some n0) acc = .stop (acc.finish 7) := by
  have hfl : f.length = done.length + tl.length := by subst hf; simp
  have hEq : sliceN f done.length 6 = tl.take 6 := by
    have hsh := sliceN_shift done tl 0 6
    rw [Nat.add_zero] at hsh
    rw [hf, hsh]
    rfl
  have hdb : (sliceN f (done.length + 6) (2 * tl.getD 5 0)).length =
      2 * tl.getD 5 0 :=
    sliceN_length_of_le f (done.length + 6) (2 * tl.getD 5 0) (by omega)
  unfold fhIter
  rw [hEq]
  simp only [List.length_take,
    getD_take_lt tl 6 0 (by omega), getD_take_lt tl 6 1 (by omega),
    getD_take_lt tl 6 2 (by omega), getD_take_lt tl 6 3 (by omega),
    getD_take_lt tl 6 5 (by omega), h0, h1, hdb]
  rw [if_neg (by omega), if_neg (by omega), if_neg (by omega),
    if_neg (by omega), if_neg (by omega), if_neg (by simp)]
  rw [if_pos hndt]

/-- C4: if the first k-1 ensembles are well-formed (with byte counts below
2^15) and ensemble k presents a full header with valid ids, a readable
offset table and a `num_data_types` different from the first ensemble's,
`fileheader` stops at ensemble k, returning ensemble = k-1 with
DATATYPE_MISMATCH (7) and keeping exactly the k-1 prior ensembles in every
index array. -/
theorem fileheader_datatype_mismatch (ess : List (List Nat)) (n0 : Nat)
    (tl : List Nat) (hne : ess ≠ [])
    (hall : ∀ e ∈ ess, EnsFramed e ∧ bcOf e < 32768 ∧ ndtOf e = n0)
    (h6 : 6 ≤ tl.length) (h0 : tl.getD 0 0 = 127) (h1 : tl.getD 1 0 = 127)
    (hbc : tl.getD 2 0 + 256 * tl.getD 3 0 < 32768)
    (htab : 6 + 2 * tl.getD 5 0 ≤ tl.length)
    (hndt : tl.getD 5 0 ≠ n0)
    (hflen : (ess.flatten ++ tl).length < 2 ^ 31) :
    fileheader (some (ess.flatten ++ tl)) =
      .ok ⟨ess.map ndtOf, ess.map bcOf, skips 0 ess, ess.map offsOf,
           dataRows (ess.flatten ++ tl) 0 ess, ess.length, 7⟩ := by
  have hge : ∀ e ∈ ess, 1 ≤ e.length := by
    intro e he
    have := (hall e he).1.2.2.1
    omega
  have hle : ess.length ≤ ess.flatten.length := len_le_flatten ess hge
  have hfl2 : (ess.flatten ++ tl).length = ess.flatten.length + tl.length := by
    simp
  rw [fileheader_some]
  have hfuel : (ess.flatten ++ tl).length + 1 =
      ((ess.flatten ++ tl).length - ess.length + 1) + ess.length := by omega
  rw [hfuel]
  have hpre := fhGo_wfseg ess (ess.flatten ++ tl) [] tl n0 none FHAcc.empty
    ((ess.flatten ++ tl).length - ess.length + 1) (by simp) hall hflen
    (Or.inl rfl)
  simp only [List.length_nil] at hpre
  rw [hpre]
  have hemp : ess.isEmpty = false := by
    rcases ess with - | ⟨e, es⟩
    · exact absurd rfl hne
    · rfl
  rw [hemp]
  have hmm := fhIter_mismatch (ess.flatten ++ tl) ess.flatten tl n0
    (FHAcc.empty.pushAll (ess.flatten ++ tl) 0 ess) rfl h6 h0 h1 hbc htab hndt
  rw [show (0 + ess.flatten.length) = ess.flatten.length by omega]
  have : ess.flatten.length = (ess.flatten).length := rfl
  rw [if_neg (by simp)]
  rw [fhGo_stop _ _ _ _ _ _ hmm]
  simp [FHAcc.pushAll, FHAcc.finish, FHAcc.empty]

/-- Header of a would-be second ensemble declaring two data types (the
first ensemble declares one): full 6-byte header plus its 4-byte offset
table. -/
def mismatchTl : List Nat := [127, 127, 8, 0, 0, 2, 0, 0, 0, 0]

theorem fileheader_datatype_mismatch_witness :
    ([goodEns] ≠ ([] : List (List Nat))) ∧
      (∀ e ∈ [goodEns], EnsFramed e ∧ bcOf e < 32768 ∧ ndtOf e = 1) ∧
      6 ≤ mismatchTl.length ∧ mismatchTl.getD 0 0 = 127 ∧
      mismatchTl.getD 1 0 = 127 ∧
      mismatchTl.getD 2 0 + 256 * mismatchTl.getD 3 0 < 32768 ∧
      6 + 2 * mismatchTl.getD 5 0 ≤ mismatchTl.length ∧
      mismatchTl.getD 5 0 ≠ 1 ∧
      ([goodEns].flatten ++ mismatchTl).length < 2 ^ 31 ∧
      fileheader (some ([goodEns].flatten ++ mismatchTl)) =
        .ok ⟨[goodEns].map ndtOf, [goodEns].map bcOf, skips 0 [goodEns],
             [goodEns].map offsOf,
             dataRows ([goodEns].flatten ++ mismatchTl) 0 [goodEns], 1, 7⟩ :=
  ⟨by decide, by decide, by decide, by decide, by decide, by decide,
   by decide, by decide, by decide,
   fileheader_datatype_mismatch [goodEns] 1 mismatchTl (by decide) (by decide)
     (by decide) (by decide) (by decide) (by decide) (by decide) (by decide)
     (by decide)⟩

/-- Absolute file offset of the start of ensemble `i`. -/
def ensStart (ess : List (List Nat)) (i : Nat) : Nat :=
  ((ess.take i).map List.length).sum

theorem dataRows_getD (f : List Nat) (ess : List (List Nat)) :
    ∀ (b i : Nat), i < ess.length →
    (dataRows f b ess).getD i [] =
      idsRow f (b + ensStart ess i) (ess.getD i []) := by
  induction ess with
  | nil => intro b i hi; simp at hi
  | cons e es ih =>
    intro b i hi
    rcases i with - | i
    · simp [dataRows, ensStart]
    · have hi' : i < es.length := by simpa using hi
      show (dataRows f (b + e.length) es).getD i [] = _
      rw [ih (b + e.length) i hi']
      have : ensStart (e :: es) (i + 1) = e.length + ensStart es i := by
        simp [ensStart, List.take_succ_cons]
      rw [this]
      have harr : b + e.length + ensStart es i =
          b + (e.length + ensStart es i) := by omega
      rw [harr]
      rfl

theorem getD_map_le16 (f : List Nat) (b : Nat) (l : List Nat) (j : Nat)
    (hj : j < l.length) :
    ((l.map fun o => le16 (sliceN f (b + o) 2)).getD j 0) =
      le16 (sliceN f (b + l.getD j 0) 2) := by
  simp only [List.getD_eq_getElem?_getD, List.getElem?_map]
  rw [List.getElem?_eq_getElem hj]
  simp [List.getD_eq_getElem?_getD, List.getElem?_eq_getElem hj]

/-- C9: the 2-byte read of a sub-record's data id is unchecked.  On a
well-formed file where ensemble `i`'s `j`-th address offset points at or
past end of file, `fileheader` still reports SUCCESS and the full ensemble
count — no error is recorded for that ensemble — and the recorded data id
is the little-endian value of whatever bytes were available, namely 0 when
the offset is at or past end of file. -/
theorem fileheader_dataid_unchecked (ess : List (List Nat)) (n0 : Nat)
    (hall : ∀ e ∈ ess, EnsFramed e ∧ bcOf e < 32768 ∧ ndtOf e = n0)
    (hflen : ess.flatten.length < 2 ^ 31) (i j : Nat) (hi : i < ess.length)
    (hj : j < (offsOf (ess.getD i [])).length)
    (hpast : ess.flatten.length ≤
      ensStart ess i + (offsOf (ess.getD i [])).getD j 0) :
    ∃ r, fileheader (some ess.flatten) = .ok r ∧ r.errorCode = 0 ∧
      r.ensemble = ess.length ∧ (r.dataid.getD i []).getD j 0 = 0 := by
  refine ⟨_, fileheader_wf_run ess n0 hall hflen, rfl, rfl, ?_⟩
  show ((dataRows ess.flatten 0 ess).getD i []).getD j 0 = 0
  rw [dataRows_getD ess.flatten ess 0 i hi]
  unfold idsRow
  rw [getD_map_le16 ess.flatten (0 + ensStart ess i) (offsOf (ess.getD i []))
    j hj]
  rw [sliceN_zero_of_ge ess.flatten _ 2 (by omega)]
  rfl

/-- A well-formed 10-byte ensemble whose single address offset (200)
points far past end of file. -/
def pastEofEns : List Nat := [127, 127, 8, 0, 0, 1, 200, 0, 0, 0]

theorem fileheader_dataid_unchecked_witness :
    (∀ e ∈ [pastEofEns], EnsFramed e ∧ bcOf e < 32768 ∧ ndtOf e = 1) ∧
      ([pastEofEns].flatten.length < 2 ^ 31) ∧ 0 < [pastEofEns].length ∧
      0 < (offsOf ([pastEofEns].getD 0 [])).length ∧
      [pastEofEns].flatten.length ≤
        ensStart [pastEofEns] 0 + (offsOf ([pastEofEns].getD 0 [])).getD 0 0 ∧
      ∃ r, fileheader (some [pastEofEns].flatten) = .ok r ∧
        r.errorCode = 0 ∧ r.ensemble = 1 ∧ (r.dataid.getD 0 []).getD 0 0 = 0 :=
  ⟨by decide, by decide, by decide, by decide, by decide,
   fileheader_dataid_unchecked [pastEofEns] 1 (by decide) (by decide) 0 0
     (by decide) (by decide) (by decide)⟩

/-- Modelled from the spec: `_calculate_checksum` is absent from the
checked-out sources (only the test suite imports it from
`pyadps.utils.pyreadrdi`); §4.2 defines it as the sum of all bytes masked
to 16 bits (`& 0xFFFF`), with empty input yielding 0. -/
def calculate_checksum (bs : List Nat) : Nat := bs.sum &&& 0xFFFF

/-- C3: `calculate_checksum` returns the byte sum masked to 16 bits — the
sum modulo 2^16 — and in particular yields 0 on empty input and 0xFF00 on
256 bytes of 0xFF. -/
theorem calculate_checksum_spec :
    (∀ bs : List Nat, calculate_checksum bs = bs.sum % 65536) ∧
      calculate_checksum [] = 0 ∧
      calculate_checksum (List.replicate 256 255) = 0xFF00 := by
  have hmod : ∀ bs : List Nat, calculate_checksum bs = bs.sum % 65536 := by
    intro bs
    unfold calculate_checksum
    rw [show (0xFFFF : Nat) = 2 ^ 16 - 1 by norm_num,
      Nat.and_pow_two_sub_one_eq_mod]
  refine ⟨hmod, by rw [hmod]; rfl, ?_⟩
  rw [hmod, List.sum_replicate, smul_eq_mul]

/-! ## fixedleader (lines 529-734 of pyreadrdi.py)

The per-ensemble Fixed Leader decode reads 59 bytes at the sub-record's
offset and unpacks 36 fields group by group.  A short buffer makes the
first affected `unpack` raise struct.error, caught by the per-iteration
handler: the error becomes FILE_CORRUPTED, `ensemble` is reset to the
current index, and — the handler not breaking — the loop continues with
the following index.  The 8-byte big-endian CPU serial number is special:
a value above `2^63 - 1` makes the assignment into the int64 array raise
OverflowError, caught by the inner handler which sets the firmware flag
`is_serial_missing` (the field stays 0) and decoding continues. -/

/-- One unpacked byte (`B`). -/
def u8 (b : List Nat) (k : Nat) : Nat := b.getD k 0

/-- One unpacked little-endian u16 (`<H`). -/
def u16 (b : List Nat) (k : Nat) : Nat := b.getD k 0 + 256 * b.getD (k + 1) 0

/-- One unpacked little-endian u32 (`<L`). -/
def u32 (b : List Nat) (k : Nat) : Nat :=
  b.getD k 0 + 256 * b.getD (k + 1) 0 + 65536 * b.getD (k + 2) 0 +
    16777216 * b.getD (k + 3) 0

/-- One unpacked big-endian u64 (`>Q`). -/
def be64 (b : List Nat) (k : Nat) : Nat :=
  b.getD (k + 7) 0 + 256 * b.getD (k + 6) 0 + 256 ^ 2 * b.getD (k + 5) 0 +
    256 ^ 3 * b.getD (k + 4) 0 + 256 ^ 4 * b.getD (k + 3) 0 +
    256 ^ 5 * b.getD (k + 2) 0 + 256 ^ 6 * b.getD (k + 1) 0 +
    256 ^ 7 * b.getD k 0

/-- How a per-ensemble decode ends: full success, an exception caught by
the per-iteration handler (loop continues), or the explicit `break` on a
bad Fixed Leader id. -/
inductive FLStat where
  | ok
  | exc
  | brk
deriving DecidableEq, Repr

/-- The 36-field column, zero-padded past the last assigned field (the
column of the pre-zeroed `fid` array). -/
def padCol (l : List Nat) : List Nat := l ++ List.replicate (36 - l.length) 0

/-- Decode one 59-byte Fixed Leader buffer into (column, status,
serial-flag trigger), following the source's unpack groups in order. -/
def flDecode (b : List Nat) : List Nat × FLStat × Bool :=
  if b.length < 4 then (padCol [], .exc, false) else
  let s1 := [u16 b 0, u8 b 2, u8 b 3]
  if ¬ (u16 b 0 = 0 ∨ u16 b 0 = 1) then (padCol s1, .brk, false) else
  if b.length < 7 then (padCol s1, .exc, false) else
  let s2 := s1 ++ [u16 b 4, u8 b 6]
  if b.length < 10 then (padCol s2, .exc, false) else
  let s3 := s2 ++ [u8 b 7, u8 b 8, u8 b 9]
  if b.length < 16 then (padCol s3, .exc, false) else
  let s4 := s3 ++ [u16 b 10, u16 b 12, u16 b 14]
  if b.length < 19 then (padCol s4, .exc, false) else
  let s5 := s4 ++ [u8 b 16, u8 b 17, u8 b 18]
  if b.length < 22 then (padCol s5, .exc, false) else
  let s6 := s5 ++ [u8 b 19, u16 b 20]
  if b.length < 25 then (padCol s6, .exc, false) else
  let s7 := s6 ++ [u8 b 22, u8 b 23, u8 b 24]
  if b.length < 30 then (padCol s7, .exc, false) else
  let s8 := s7 ++ [u8 b 25, u16 b 26, u16 b 28]
  if b.length < 32 then (padCol s8, .exc, false) else
  let s9 := s8 ++ [u8 b 30, u8 b 31]
  if b.length < 38 then (padCol s9, .exc, false) else
  let s10 := s9 ++ [u16 b 32, u16 b 34, u16 b 36]
  if b.length < 42 then (padCol s10, .exc, false) else
  let s11 := s10 ++ [u8 b 38, u8 b 39, u16 b 40]
  if b.length < 50 then (padCol s11, .exc, false) else
  let serial := be64 b 42
  let trig := decide (2 ^ 63 ≤ serial)
  let s12 := s11 ++ [if 2 ^ 63 ≤ serial then 0 else serial]
  if b.length < 54 then (padCol s12, .exc, trig) else
  let s13 := s12 ++ [u16 b 50, u8 b 52, u8 b 53]
  if b.length < 59 then (padCol s13, .exc, trig) else
  (s13 ++ [u32 b 54, u8 b 58], .ok, trig)

/-- `fbyteskip` selection: the last offset whose data id is 0 or 1 (the
inner `for count, item in enumerate(idarray[i])` loop has no break). -/
def lastMatch (idrow offrow : List Nat) : Option Nat :=
  (idrow.zip offrow).foldl
    (fun acc p => if p.1 = 0 ∨ p.1 = 1 then some p.2 else acc) none

/-- Loop state of `fixedleader`: file position, the firmware serial flag,
the current (possibly truncated) ensemble count, the last error assigned
inside the loop, and the decoded columns. -/
structure FLSt where
  pos : Nat
  flag : Bool
  ensCur : Nat
  lastErr : Option Nat
  cols : List (List Nat)
deriving DecidableEq, Repr

/-- The `for i in range(ensemble)` loop of `fixedleader`.  The iteration
index equals the number of decoded columns.  A missing Fixed Leader id or
a bad id in the record breaks with ID_NOT_FOUND (6); a decode exception
records FILE_CORRUPTED (8), truncates `ensemble` to the current index and
continues (the handler has no `break`); on success the position is reset
to `byteskip[i]`.  (The model pairs each id row with its offset row; the
source indexes `offset[i][count]` directly, which for the index arrays
produced by `fileheader` — equal-length rows — is the same.) -/
def flGo (f : List Nat) (bsk : List Nat) (offs ids : List (List Nat)) :
    Nat → FLSt → FLSt
  | 0, st => st
  | n + 1, st =>
    let i := st.cols.length
    match lastMatch (ids.getD i []) (offs.getD i []) with
    | none => { st with ensCur := i, lastErr := some 6 }
    | some fb =>
      let pos1 := st.pos + fb
      let bdata := sliceN f pos1 59
      let d := flDecode bdata
      match d.2.1 with
      | .brk =>
        { st with cols := st.cols ++ [d.1], ensCur := i, lastErr := some 6 }
      | .exc =>
        flGo f bsk offs ids n
          ⟨pos1 + bdata.length, st.flag || d.2.2, i, some 8,
           st.cols ++ [d.1]⟩
      | .ok =>
        flGo f bsk offs ids n
          ⟨bsk.getD i 0, st.flag || d.2.2, st.ensCur, st.lastErr,
           st.cols ++ [d.1]⟩

/-- The whole loop run from position 0. -/
def flRun (f : List Nat) (bsk : List Nat) (offs ids : List (List Nat))
    (ens0 : Nat) : FLSt :=
  flGo f bsk offs ids ens0 ⟨0, false, ens0, none, []⟩

/-- Zero fields 30-35 of a column (`fid[30,:] = 0` … `fid[35,:] = 0`). -/
def zeroTail (col : List Nat) : List Nat :=
  col.take 30 ++ List.replicate 6 0

/-- Result of `fixedleader`: the data columns (each 36 fields), the
ensemble count and the error code. -/
structure FLRes where
  data : List (List Nat)
  ensemble : Nat
  errorCode : Nat
deriving DecidableEq, Repr

/-- Body of `fixedleader` after the optional-index dispatch: open the file
(failure returns the zero-filled (36, ensemble) array with the open error
code), run the loop, apply the firmware-wide serial zeroing if flagged,
truncate to the final ensemble count, and return the last loop error if
any, else the upstream `fileheader` error code (which the caller passes as
0 when a precomputed index was supplied). -/
def flCore (fs : Option (List Nat)) (bsk : List Nat)
    (offs ids : List (List Nat)) (ens0 upstream : Nat) : FLRes :=
  match fs with
  | none => ⟨(List.range ens0).map fun _ => List.replicate 36 0, ens0, 1⟩
  | some f =>
    let st := flRun f bsk offs ids ens0
    let cols := if st.flag then st.cols.map zeroTail else st.cols
    ⟨cols.take st.ensCur, st.ensCur, st.lastErr.getD upstream⟩

/-- The precomputed index arrays of `fileheader` that extractors accept. -/
structure FileIndex where
  byteskip : List Nat
  offs : List (List Nat)
  ids : List (List Nat)
  ensemble : Nat
deriving DecidableEq, Repr

/-- Package a `fileheader` result as the optional arguments
`(byteskip, offset, idarray, ensemble)` — the error code is not part of
the index. -/
def mkIndex (r : FHRes) : FileIndex := ⟨r.byteskip, r.addrOff, r.dataid, r.ensemble⟩

/-- `fixedleader(rdi_file, byteskip, offset, idarray, ensemble)`: when the
index arrays are missing or `ensemble == 0`, `fileheader` is invoked
internally and its error code is carried into `error_code`; otherwise the
supplied index is used and `error_code` starts at 0. -/
def fixedleader (fs : Option (List Nat)) (idx : Option FileIndex) : FLRes :=
  match idx with
  | some ix =>
    if ix.ensemble = 0 then
      let r := fhSafe fs
      flCore fs r.byteskip r.addrOff r.dataid r.ensemble r.errorCode
    else
      flCore fs ix.byteskip ix.offs ix.ids ix.ensemble 0
  | none =>
    let r := fhSafe fs
    flCore fs r.byteskip r.addrOff r.dataid r.ensemble r.errorCode

theorem getD_replicate_zero (n m : Nat) :
    (List.replicate n (0 : Nat)).getD m 0 = 0 := by
  rw [List.getD_eq_getElem?_getD]
  rcases h : (List.replicate n (0 : Nat))[m]? with - | x
  · rfl
  · have hx := List.eq_of_mem_replicate (List.getElem?_mem h)
    rw [hx]
    rfl

theorem zeroTail_getD (c : List Nat) (k : Nat) (hk : 30 ≤ k) :
    (zeroTail c).getD k 0 = 0 := by
  unfold zeroTail
  have hlt : (c.take 30).length ≤ 30 := by simp
  rw [List.getD_eq_getElem?_getD, List.getElem?_append_right (by omega)]
  rw [← List.getD_eq_getElem?_getD]
  exact getD_replicate_zero 6 _

theorem flCore_some (f : List Nat) (bsk : List Nat)
    (offs ids : List (List Nat)) (ens0 u : Nat) :
    flCore (some f) bsk offs ids ens0 u =
      ⟨(if (flRun f bsk offs ids ens0).flag
          then (flRun f bsk offs ids ens0).cols.map zeroTail
          else (flRun f bsk offs ids ens0).cols).take
         (flRun f bsk offs ids ens0).ensCur,
       (flRun f bsk offs ids ens0).ensCur,
       (flRun f bsk offs ids ens0).lastErr.getD u⟩ := rfl

theorem fixedleader_some_idx (fs : Option (List Nat)) (ix : FileIndex) :
    fixedleader fs (some ix) =
      if ix.ensemble = 0 then
        flCore fs (fhSafe fs).byteskip (fhSafe fs).addrOff (fhSafe fs).dataid
          (fhSafe fs).ensemble (fhSafe fs).errorCode
      else flCore fs ix.byteskip ix.offs ix.ids ix.ensemble 0 := rfl

theorem fixedleader_none_idx (fs : Option (List Nat)) :
    fixedleader fs none =
      flCore fs (fhSafe fs).byteskip (fhSafe fs).addrOff (fhSafe fs).dataid
        (fhSafe fs).ensemble (fhSafe fs).errorCode := rfl

/-- C5: if the firmware serial flag was raised while decoding any one
ensemble (overflow or failed read of the 8-byte big-endian CPU serial),
then in the array returned by `fixedleader`'s core the six fields 30-35
(cpu_serial, bandwidth, power, spare2, instrument_no, beam_angle) equal
the sentinel 0 for every ensemble of the output, not only the affected
one. -/
theorem fixedleader_serial_zeroes_all (f : List Nat) (bsk : List Nat)
    (offs ids : List (List Nat)) (ens0 upstream : Nat)
    (hflag : (flRun f bsk offs ids ens0).flag = true) :
    ∀ col ∈ (flCore (some f) bsk offs ids ens0 upstream).data,
      ∀ k, 30 ≤ k → col.getD k 0 = 0 := by
  intro col hcol k hk
  rw [flCore_some, hflag] at hcol
  simp only [if_true] at hcol
  obtain ⟨c, -, rfl⟩ := List.mem_map.1 (List.take_subset _ _ hcol)
  exact zeroTail_getD c k hk

/-- Fixed Leader whose CPU serial number has its big-endian top bit set
(value 2^63, above the int64 range). -/
def serialFl : List Nat :=
  [0, 0, 0, 0, 0, 0, 0, 0, 1, 1] ++ List.replicate 32 0 ++ [128] ++
    List.replicate 16 0

/-- Ensemble carrying `serialFl`. -/
def serialEns : List Nat :=
  [127, 127, 67, 0, 0, 1] ++ [8, 0] ++ serialFl ++ [204, 1]

/-- Two-ensemble file: the first ensemble's serial overflows, the second
is ordinary. -/
def serialFile : List Nat := serialEns ++ goodEns

theorem fixedleader_serial_zeroes_all_witness :
    (flRun serialFile [69, 138] [[8], [8]] [[0], [0]] 2).flag = true ∧
      (∀ col ∈ (flCore (some serialFile) [69, 138] [[8], [8]] [[0], [0]] 2 0).data,
        ∀ k, 30 ≤ k → col.getD k 0 = 0) ∧
      ((flCore (some serialFile) [69, 138] [[8], [8]] [[0], [0]] 2 0).data.getD 1 []).getD 30 0 = 0 ∧
      ((flCore (some serialFile) [69, 138] [[8], [8]] [[0], [0]] 2 0).data.getD 1 []).getD 6 0 = 1 :=
  ⟨by decide,
   fixedleader_serial_zeroes_all serialFile [69, 138] [[8], [8]] [[0], [0]]
     2 0 (by decide),
   by decide, by decide⟩

theorem flCore_code_drop (f : List Nat) (bsk : List Nat)
    (offs ids : List (List Nat)) (ens0 u : Nat) :
    flCore (some f) bsk offs ids ens0 u =
      ⟨(flCore (some f) bsk offs ids ens0 0).data,
       (flCore (some f) bsk offs ids ens0 0).ensemble,
       (flRun f bsk offs ids ens0).lastErr.getD u⟩ := rfl

/-! ## variableleader (lines 737-924 of pyreadrdi.py)

`variableleader` mirrors `fixedleader`: the same optional-index dispatch,
a per-ensemble loop seeking to the last offset whose data id is 128 or
129, a 65-byte read decoded by successive `unpack` groups into an int32
column of 48 fields, a per-iteration handler that records FILE_CORRUPTED
and continues, and a `break` with ID_NOT_FOUND when the id is missing
from the row or the record's leading id is not 128/129.  Every unpacked
value (`B`, `<H`, `<h`, `<i`) fits in int32, so — unlike the fixed
leader's serial number — no overflow path exists. -/

/-- One unpacked signed little-endian 16-bit value (`<h`). -/
def s16 (b : List Nat) (k : Nat) : Int :=
  if 32768 ≤ u16 b k then (u16 b k : Int) - 65536 else (u16 b k : Int)

/-- One unpacked signed little-endian 32-bit value (`<i`). -/
def s32 (b : List Nat) (k : Nat) : Int :=
  if 2 ^ 31 ≤ u32 b k then (u32 b k : Int) - 2 ^ 32 else (u32 b k : Int)

/-- The 48-field column, zero-padded past the last assigned field (the
column of the pre-zeroed `vid` array). -/
def vlPad (l : List Int) : List Int := l ++ List.replicate (48 - l.length) 0

/-- Decode one 65-byte Variable Leader buffer into (column, status),
following the source's unpack groups in order (lines 829-897). -/
def vlDecode (b : List Nat) : List Int × FLStat :=
  if b.length < 4 then (vlPad [], .exc) else
  let s1 : List Int := [(u16 b 0 : Int), (u16 b 2 : Int)]
  if ¬ (u16 b 0 = 128 ∨ u16 b 0 = 129) then (vlPad s1, .brk) else
  if b.length < 11 then (vlPad s1, .exc) else
  let s2 := s1 ++ [(u8 b 4 : Int), (u8 b 5 : Int), (u8 b 6 : Int),
    (u8 b 7 : Int), (u8 b 8 : Int), (u8 b 9 : Int), (u8 b 10 : Int)]
  if b.length < 14 then (vlPad s2, .exc) else
  let s3 := s2 ++ [(u8 b 11 : Int), (u16 b 12 : Int)]
  if b.length < 28 then (vlPad s3, .exc) else
  let s4 := s3 ++ [(u16 b 14 : Int), (u16 b 16 : Int), (u16 b 18 : Int),
    s16 b 20, s16 b 22, (u16 b 24 : Int), s16 b 26]
  if b.length < 31 then (vlPad s4, .exc) else
  let s5 := s4 ++ [(u8 b 28 : Int), (u8 b 29 : Int), (u8 b 30 : Int)]
  if b.length < 34 then (vlPad s5, .exc) else
  let s6 := s5 ++ [(u8 b 31 : Int), (u8 b 32 : Int), (u8 b 33 : Int)]
  if b.length < 42 then (vlPad s6, .exc) else
  let s7 := s6 ++ [(u8 b 34 : Int), (u8 b 35 : Int), (u8 b 36 : Int),
    (u8 b 37 : Int), (u8 b 38 : Int), (u8 b 39 : Int), (u8 b 40 : Int),
    (u8 b 41 : Int)]
  if b.length < 46 then (vlPad s7, .exc) else
  let s8 := s7 ++ [(u8 b 42 : Int), (u8 b 43 : Int), (u8 b 44 : Int),
    (u8 b 45 : Int)]
  if b.length < 57 then (vlPad s8, .exc) else
  let s9 := s8 ++ [(u16 b 46 : Int), s32 b 48, s32 b 52, (u8 b 56 : Int)]
  if b.length < 65 then (vlPad s9, .exc) else
  (s9 ++ [(u8 b 57 : Int), (u8 b 58 : Int), (u8 b 59 : Int),
    (u8 b 60 : Int), (u8 b 61 : Int), (u8 b 62 : Int), (u8 b 63 : Int),
    (u8 b 64 : Int)], .ok)

/-- `fbyteskip` selection for the Variable Leader: the last offset whose
data id is 128 or 129. -/
def lastMatch128 (idrow offrow : List Nat) : Option Nat :=
  (idrow.zip offrow).foldl
    (fun acc p => if p.1 = 128 ∨ p.1 = 129 then some p.2 else acc) none

/-- Loop state of `variableleader`: file position, the current (possibly
truncated) ensemble count, the last error assigned inside the loop, and
the decoded columns. -/
structure VLSt where
  pos : Nat
  ensCur : Nat
  lastErr : Option Nat
  cols : List (List Int)
deriving DecidableEq, Repr

/-- The `for i in range(ensemble)` loop of `variableleader`, shaped like
`flGo`: a missing or bad Variable Leader id breaks with ID_NOT_FOUND (6);
a decode exception records FILE_CORRUPTED (8), truncates `ensemble` to
the current index and continues (the handler has no `break`); on success
the position is reset to `byteskip[i]`. -/
def vlGo (f : List Nat) (bsk : List Nat) (offs ids : List (List Nat)) :
    Nat → VLSt → VLSt
  | 0, st => st
  | n + 1, st =>
    let i := st.cols.length
    match lastMatch128 (ids.getD i []) (offs.getD i []) with
    | none => { st with ensCur := i, lastErr := some 6 }
    | some fb =>
      let pos1 := st.pos + fb
      let bdata := sliceN f pos1 65
      let d := vlDecode bdata
      match d.2 with
      | .brk =>
        { st with cols := st.cols ++ [d.1], ensCur := i, lastErr := some 6 }
      | .exc =>
        vlGo f bsk offs ids n
          ⟨pos1 + bdata.length, i, some 8, st.cols ++ [d.1]⟩
      | .ok =>
        vlGo f bsk offs ids n
          ⟨bsk.getD i 0, st.ensCur, st.lastErr, st.cols ++ [d.1]⟩

/-- The whole loop run from position 0. -/
def vlRun (f : List Nat) (bsk : List Nat) (offs ids : List (List Nat))
    (ens0 : Nat) : VLSt :=
  vlGo f bsk offs ids ens0 ⟨0, ens0, none, []⟩

/-- Result of `variableleader`: the data columns (each 48 fields), the
ensemble count and the error code. -/
structure VLRes where
  data : List (List Int)
  ensemble : Nat
  errorCode : Nat
deriving DecidableEq, Repr

/-- Body of `variableleader` after the optional-index dispatch, shaped
like `flCore` (there is no serial flag): open the file (failure returns
the zero-filled (48, ensemble) array with the open error code), run the
loop, truncate, and return the last loop error if any, else the upstream
`fileheader` error code. -/
def vlCore (fs : Option (List Nat)) (bsk : List Nat)
    (offs ids : List (List Nat)) (ens0 upstream : Nat) : VLRes :=
  match fs with
  | none => ⟨(List.range ens0).map fun _ => List.replicate 48 0, ens0, 1⟩
  | some f =>
    let st := vlRun f bsk offs ids ens0
    ⟨st.cols.take st.ensCur, st.ensCur, st.lastErr.getD upstream⟩

/-- `variableleader(rdi_file, byteskip, offset, idarray, ensemble)`: the
same dispatch as `fixedleader` — a supplied index carries no error code. -/
def variableleader (fs : Option (List Nat)) (idx : Option FileIndex) : VLRes :=
  match idx with
  | some ix =>
    if ix.ensemble = 0 then
      let r := fhSafe fs
      vlCore fs r.byteskip r.addrOff r.dataid r.ensemble r.errorCode
    else vlCore fs ix.byteskip ix.offs ix.ids ix.ensemble 0
  | none =>
    let r := fhSafe fs
    vlCore fs r.byteskip r.addrOff r.dataid r.ensemble r.errorCode

theorem vlCore_some (f : List Nat) (bsk : List Nat)
    (offs ids : List (List Nat)) (ens0 u : Nat) :
    vlCore (some f) bsk offs ids ens0 u =
      ⟨(vlRun f bsk offs ids ens0).cols.take (vlRun f bsk offs ids ens0).ensCur,
       (vlRun f bsk offs ids ens0).ensCur,
       (vlRun f bsk offs ids ens0).lastErr.getD u⟩ := rfl

theorem variableleader_some_idx (fs : Option (List Nat)) (ix : FileIndex) :
    variableleader fs (some ix) =
      if ix.ensemble = 0 then
        vlCore fs (fhSafe fs).byteskip (fhSafe fs).addrOff (fhSafe fs).dataid
          (fhSafe fs).ensemble (fhSafe fs).errorCode
      else vlCore fs ix.byteskip ix.offs ix.ids ix.ensemble 0 := rfl

theorem variableleader_none_idx (fs : Option (List Nat)) :
    variableleader fs none =
      vlCore fs (fhSafe fs).byteskip (fhSafe fs).addrOff (fhSafe fs).dataid
        (fhSafe fs).ensemble (fhSafe fs).errorCode := rfl

/-- A good ensemble followed by three trailing garbage bytes: `fileheader`
parses one ensemble and ends with FILE_CORRUPTED (8). -/
def trailEns : List Nat := goodEns ++ [127, 0, 0]

/-- C7 counterexample: on `trailEns`, calling `fixedleader` with the
precomputed FileIndex from `fileheader` yields error code 0 while calling
it with the filename alone yields 8 — the results are not byte-identical
(the data arrays and ensemble counts agree; only the error code differs). -/
theorem fixedleader_index_cex :
    (fixedleader (some trailEns) (some (mkIndex (fhSafe (some trailEns))))).errorCode = 0 ∧
      (fixedleader (some trailEns) none).errorCode = 8 ∧
      (fixedleader (some trailEns) (some (mkIndex (fhSafe (some trailEns))))).data =
        (fixedleader (some trailEns) none).data ∧
      fixedleader (some trailEns) (some (mkIndex (fhSafe (some trailEns)))) ≠
        fixedleader (some trailEns) none := by
  exact ⟨by decide, by decide, by decide, by decide⟩

/-! ## datatype (lines 927-1128 of pyreadrdi.py)

`datatype` returns a 5-tuple `(data, ensemble, cell_array, beam_array,
error_code)` on the main path but a bare 2-tuple `(array, error_code)` on
the early exits (fileheader file-access failure, failed open, invalid
variable name, data-type id absent from the first ensemble); `max()` over
an empty beam/cell array raises an uncaught ValueError.  The final return
uses the stale `error_code` variable: the loop's `except` handler assigns
`ErrorCode.FILE_CORRUPTED` to `error` and truncates `ensemble`, but never
copies it into `error_code`. -/

/-- Return shapes of `datatype`. -/
inductive DTOut where
  | short (arr : List (List (List Int))) (code : Nat)
  | full (data : List (List (List Int))) (ensemble : Nat)
      (cells beams : List Nat) (code : Nat)
  | raised
deriving DecidableEq, Repr

/-- `varid.get(var_name)`: the two data-type ids of each variable name
(exact, case-sensitive match). -/
def varidOf (name : String) : Option (Nat × Nat) :=
  if name = "velocity" then some (256, 257)
  else if name = "correlation" then some (512, 513)
  else if name = "echo" then some (768, 769)
  else if name = "percent good" then some (1024, 1025)
  else if name = "status" then some (1280, 1281)
  else none

/-- Signed little-endian 16-bit sample. -/
def i16 (a b : Nat) : Int :=
  if 32768 ≤ a + 256 * b then (a + 256 * b : Int) - 65536 else (a + 256 * b : Int)

/-- `np.frombuffer(bdata, dtype="int16")`. -/
def decodePairs : List Nat → List Int
  | a :: b :: rest => i16 a b :: decodePairs rest
  | _ => []

/-- `np.frombuffer(bdata, dtype="uint8")`. -/
def decodeBytes (l : List Nat) : List Int := l.map fun x => (x : Int)

/-- The preallocated output array, ensemble-major: velocity is int16
filled with the sentinel -32768, everything else uint8 zeros. -/
def dtInit (name : String) (mb mc ens : Nat) : List (List (List Int)) :=
  (List.range ens).map fun _ =>
    (List.range mb).map fun _ =>
      (List.range mc).map fun _ =>
        if name = "velocity" then (-32768 : Int) else 0

/-- `var_array[:beam, :cell, i] = block.reshape((beam, cell))`: write the
row-major samples into the top-left `beams × cells` corner of the matrix. -/
def writeBlock (mat : List (List Int)) (beams cells : Nat)
    (vals : List Int) : List (List Int) :=
  mat.mapIdx fun r row =>
    row.mapIdx fun c v =>
      if r < beams ∧ c < cells then vals.getD (r * cells + c) 0 else v

/-- The `for ensemble_idx in range(ensemble)` read loop, wrapped in a
single try: a short read (reshape/frombuffer ValueError) aborts the whole
loop, truncating the ensemble count to the current index; nothing is
written back into `error_code`. -/
def dtGo (f : List Nat) (bskA fbA beams cells : List Nat) (bitint : Nat)
    (name : String) (ens0 : Nat) :
    Nat → Nat → Nat → List (List (List Int)) → List (List (List Int)) × Nat
  | 0, _, _, arr => (arr, ens0)
  | n + 1, i, pos, arr =>
    let total := beams.getD i 0 * cells.getD i 0 * bitint
    let pos1 := pos + fbA.getD i 0
    let bdata := sliceN f pos1 total
    if bdata.length ≠ total then (arr, i)
    else
      let vals := if name = "velocity" then decodePairs bdata
                  else decodeBytes bdata
      let mat := writeBlock (arr.getD i []) (beams.getD i 0) (cells.getD i 0)
        vals
      dtGo f bskA fbA beams cells bitint name ens0 n (i + 1) (bskA.getD i 0)
        (arr.set i mat)

/-- `datatype` from the point where beam/cell arrays are known: compute
the max dimensions (`max()` of an empty array raises), allocate, open the
file, resolve the variable id, locate it in the first ensemble's id row,
then run the read loop.  The final error code is the stale `error_code`
(`errc`), not the loop's FILE_CORRUPTED. -/
def dtAfterArrays (fs : Option (List Nat)) (name : String) (bsk : List Nat)
    (offs ids : List (List Nat)) (ens : Nat) (cells beams : List Nat)
    (errc : Nat) : DTOut :=
  if beams.isEmpty ∨ cells.isEmpty then .raised
  else
    let mb := beams.foldl Nat.max 0
    let mc := cells.foldl Nat.max 0
    let bitint := if name = "velocity" then 2 else 1
    let arr0 := dtInit name mb mc ens
    match fs with
    | none => .short arr0 1
    | some f =>
      match varidOf name with
      | none => .short arr0 9
      | some v =>
        match (ids.getD 0 []).findIdx? (fun x => x == v.1 || x == v.2) with
        | none => .short arr0 6
        | some cnt =>
          let fbA := (List.range ens).map fun i => (offs.getD i []).getD cnt 0
          let out := dtGo f bsk fbA beams cells bitint name ens ens 0 0 arr0
          .full (out.1.take out.2) out.2 cells beams errc

/-- `datatype` from the point where the index is known: derive beam/cell
counts from `fixedleader` (which rebinds `ensemble` to its possibly
truncated count and can override the error code) unless they were passed
in. -/
def dtAfterIndex (fs : Option (List Nat)) (name : String)
    (cellbeam : Option (List Nat × List Nat)) (bsk : List Nat)
    (offs ids : List (List Nat)) (ens errc0 : Nat) : DTOut :=
  match cellbeam with
  | some (c, b) => dtAfterArrays fs name bsk offs ids ens c b errc0
  | none =>
    let fl := fixedleader fs (some ⟨bsk, offs, ids, ens⟩)
    let cells := fl.data.map fun col => col.getD 7 0
    let beams := fl.data.map fun col => col.getD 6 0
    let errc := if fl.errorCode ≠ 0 then fl.errorCode else errc0
    dtAfterArrays fs name bsk offs ids fl.ensemble cells beams errc

/-- The internal `fileheader` invocation of `datatype`: error codes 1-5
short-circuit with the bare `(np.array([]), error_code)` 2-tuple. -/
def datatypeFetch (fs : Option (List Nat)) (name : String)
    (cellbeam : Option (List Nat × List Nat)) : DTOut :=
  let r := fhSafe fs
  if 0 < r.errorCode ∧ r.errorCode < 6 then .short [] r.errorCode
  else dtAfterIndex fs name cellbeam r.byteskip r.addrOff r.dataid
    r.ensemble r.errorCode

/-- `datatype(filename, var_name, cell, beam, byteskip, offset, idarray,
ensemble)`: the index arrays are fetched via `fileheader` when missing or
when `ensemble == 0`; a supplied index carries no error code. -/
def datatype (fs : Option (List Nat)) (name : String)
    (cellbeam : Option (List Nat × List Nat)) (idx : Option FileIndex) :
    DTOut :=
  match idx with
  | some ix =>
    if ix.ensemble = 0 then datatypeFetch fs name cellbeam
    else dtAfterIndex fs name cellbeam ix.byteskip ix.offs ix.ids
      ix.ensemble 0
  | none => datatypeFetch fs name cellbeam

/-- Fixed Leader with beams = 1 (offset 8) and cells = 2 (offset 9). -/
def velFl : List Nat := [0, 0, 0, 0, 0, 0, 0, 0, 1, 2] ++ List.replicate 49 0

/-- A 77-byte ensemble with two data types: the Fixed Leader at offset 10
and a velocity record (id 256) at offset 69 with 1 beam × 2 cells of
samples. -/
def velEns2 : List Nat :=
  [127, 127, 75, 0, 0, 2] ++ [10, 0, 69, 0] ++ velFl ++ [0, 1] ++
    [5, 0, 6, 0] ++ [169, 1]

/-- Two complete velocity ensembles. -/
def velFile : List Nat := velEns2 ++ velEns2

/-- A complete first ensemble followed by a second ensemble truncated
inside its velocity data block (cut at relative byte 72 of 77). -/
def fileShortVel : List Nat := velEns2 ++ velEns2.take 72

/-- C6 (code bug): on `fileShortVel`, `datatype` hits a short read while
reading ensemble 2's beam-by-cell block, truncates the ensemble count to
1 and keeps ensemble 1's decoded data — but returns error code 0, not
FILE_CORRUPTED (8): the loop's handler assigns `ErrorCode.FILE_CORRUPTED`
to `error` without ever copying it into the returned `error_code`. -/
theorem datatype_short_read_stale_code :
    datatype (some fileShortVel) ("velocity") none none =
      .full [[[256, 5]]] 1 [2, 2] [1, 1] 0 := by decide

/-- C8 counterexample: a call with an invalid variable name does not
return VALUE_ERROR (9) when the file is missing — the internal
`fileheader` runs first and its FILE_NOT_FOUND (1) is returned instead,
so the argument check neither dominates nor precedes the I/O. -/
theorem datatype_invalid_name_cex :
    datatype none ("bogus") none none = .short [] 1 := by decide

theorem datatype_none_idx (fs : Option (List Nat)) (name : String)
    (cellbeam : Option (List Nat × List Nat)) :
    datatype fs name cellbeam none = datatypeFetch fs name cellbeam := rfl

theorem datatypeFetch_eq (fs : Option (List Nat)) (name : String)
    (cellbeam : Option (List Nat × List Nat)) :
    datatypeFetch fs name cellbeam =
      if 0 < (fhSafe fs).errorCode ∧ (fhSafe fs).errorCode < 6 then
        .short [] (fhSafe fs).errorCode
      else
        dtAfterIndex fs name cellbeam (fhSafe fs).byteskip
          (fhSafe fs).addrOff (fhSafe fs).dataid (fhSafe fs).ensemble
          (fhSafe fs).errorCode := rfl

theorem dtAfterIndex_derive (fs : Option (List Nat)) (name : String)
    (bsk : List Nat) (offs ids : List (List Nat)) (ens errc0 : Nat) :
    dtAfterIndex fs name none bsk offs ids ens errc0 =
      dtAfterArrays fs name bsk offs ids
        (fixedleader fs (some ⟨bsk, offs, ids, ens⟩)).ensemble
        ((fixedleader fs (some ⟨bsk, offs, ids, ens⟩)).data.map
          fun col => col.getD 7 0)
        ((fixedleader fs (some ⟨bsk, offs, ids, ens⟩)).data.map
          fun col => col.getD 6 0)
        (if (fixedleader fs (some ⟨bsk, offs, ids, ens⟩)).errorCode ≠ 0 then
          (fixedleader fs (some ⟨bsk, offs, ids, ens⟩)).errorCode
        else errc0) := rfl

theorem datatype_some_idx (fs : Option (List Nat)) (name : String)
    (cellbeam : Option (List Nat × List Nat)) (ix : FileIndex) :
    datatype fs name cellbeam (some ix) =
      if ix.ensemble = 0 then datatypeFetch fs name cellbeam
      else dtAfterIndex fs name cellbeam ix.byteskip ix.offs ix.ids
        ix.ensemble 0 := rfl

/-- A 65-byte Variable Leader record: id 128, ensemble number 7, the rest
zero. -/
def vlRec : List Nat := [128, 0, 7, 0] ++ List.replicate 61 0

/-- A 136-byte ensemble with two data types: the Fixed Leader at offset
10 and the Variable Leader at offset 69 (byte_count 134, checksum
606 = 0x025E). -/
def flvlEns : List Nat :=
  [127, 127, 134, 0, 0, 2] ++ [10, 0, 69, 0] ++ fl59 ++ vlRec ++ [94, 2]

/-- C7 (amended): when `fileheader` reports SUCCESS on the file, each of
the three extractors — `fixedleader`, `variableleader` and `datatype` —
called with the precomputed FileIndex returns a result identical to the
filename-only call; and on every file `fixedleader`'s and
`variableleader`'s data arrays and ensemble counts coincide between the
two call forms.  In general the results are not byte-identical: the
error code of the internal `fileheader` call is not propagated when an
index is supplied. -/
theorem extractors_index_equiv (fs : Option (List Nat))
    (h : (fhSafe fs).errorCode = 0) :
    (fixedleader fs (some (mkIndex (fhSafe fs))) = fixedleader fs none ∧
     variableleader fs (some (mkIndex (fhSafe fs))) = variableleader fs none ∧
     ∀ name cellbeam,
       datatype fs name cellbeam (some (mkIndex (fhSafe fs))) =
         datatype fs name cellbeam none) ∧
    ∀ gs : Option (List Nat),
      ((fixedleader gs (some (mkIndex (fhSafe gs)))).data =
          (fixedleader gs none).data ∧
        (fixedleader gs (some (mkIndex (fhSafe gs)))).ensemble =
          (fixedleader gs none).ensemble) ∧
      ((variableleader gs (some (mkIndex (fhSafe gs)))).data =
          (variableleader gs none).data ∧
        (variableleader gs (some (mkIndex (fhSafe gs)))).ensemble =
          (variableleader gs none).ensemble) := by
  refine ⟨⟨?_, ?_, ?_⟩, ?_⟩
  · rw [fixedleader_some_idx, fixedleader_none_idx]
    simp only [mkIndex]
    by_cases he : (fhSafe fs).ensemble = 0
    · rw [if_pos he]
    · rw [if_neg he, ← h]
  · rw [variableleader_some_idx, variableleader_none_idx]
    simp only [mkIndex]
    by_cases he : (fhSafe fs).ensemble = 0
    · rw [if_pos he]
    · rw [if_neg he, ← h]
  · intro name cellbeam
    rw [datatype_some_idx, datatype_none_idx]
    simp only [mkIndex]
    by_cases he : (fhSafe fs).ensemble = 0
    · rw [if_pos he]
    · rw [if_neg he, datatypeFetch_eq, if_neg (by rw [h]; simp), h]
  · intro gs
    constructor
    · rw [fixedleader_some_idx, fixedleader_none_idx]
      simp only [mkIndex]
      by_cases he : (fhSafe gs).ensemble = 0
      · rw [if_pos he]
        exact ⟨rfl, rfl⟩
      · rw [if_neg he]
        rcases gs with - | g
        · exact ⟨rfl, rfl⟩
        · rw [flCore_some g (fhSafe (some g)).byteskip (fhSafe (some g)).addrOff
            (fhSafe (some g)).dataid (fhSafe (some g)).ensemble
            (fhSafe (some g)).errorCode,
            flCore_some g (fhSafe (some g)).byteskip (fhSafe (some g)).addrOff
            (fhSafe (some g)).dataid (fhSafe (some g)).ensemble 0]
          exact ⟨rfl, rfl⟩
    · rw [variableleader_some_idx, variableleader_none_idx]
      simp only [mkIndex]
      by_cases he : (fhSafe gs).ensemble = 0
      · rw [if_pos he]
        exact ⟨rfl, rfl⟩
      · rw [if_neg he]
        rcases gs with - | g
        · exact ⟨rfl, rfl⟩
        · rw [vlCore_some g (fhSafe (some g)).byteskip (fhSafe (some g)).addrOff
            (fhSafe (some g)).dataid (fhSafe (some g)).ensemble
            (fhSafe (some g)).errorCode,
            vlCore_some g (fhSafe (some g)).byteskip (fhSafe (some g)).addrOff
            (fhSafe (some g)).dataid (fhSafe (some g)).ensemble 0]
          exact ⟨rfl, rfl⟩

theorem extractors_index_equiv_witness :
    (fhSafe (some flvlEns)).errorCode = 0 ∧
      fixedleader (some flvlEns) (some (mkIndex (fhSafe (some flvlEns)))) =
        fixedleader (some flvlEns) none ∧
      variableleader (some flvlEns) (some (mkIndex (fhSafe (some flvlEns)))) =
        variableleader (some flvlEns) none ∧
      datatype (some flvlEns) ("velocity") none
          (some (mkIndex (fhSafe (some flvlEns)))) =
        datatype (some flvlEns) ("velocity") none none :=
  ⟨by decide,
   (extractors_index_equiv (some flvlEns) (by decide)).1.1,
   (extractors_index_equiv (some flvlEns) (by decide)).1.2.1,
   (extractors_index_equiv (some flvlEns) (by decide)).1.2.2 ("velocity") none⟩

theorem dtAfterArrays_invalid (f : List Nat) (name : String)
    (bsk : List Nat) (offs ids : List (List Nat)) (ens : Nat)
    (cells beams : List Nat) (errc : Nat)
    (hb : ¬ (beams.isEmpty ∨ cells.isEmpty)) (hname : varidOf name = none) :
    dtAfterArrays (some f) name bsk offs ids ens cells beams errc =
      .short (dtInit name (beams.foldl Nat.max 0) (cells.foldl Nat.max 0)
        ens) 9 := by
  unfold dtAfterArrays
  rw [if_neg hb, hname]

/-- C8 (amended): a `datatype` call whose var_name is not exactly one of
the five permitted names returns VALUE_ERROR (9) provided the internal
`fileheader` call did not fail with a file-access error (codes 1-5) and
the fixed-leader derivation yielded a nonempty data array — the check
happens only after `fileheader` and `fixedleader` have read the file and
the file has been opened, not before any I/O. -/
theorem datatype_invalid_name_after_io (fs : List Nat) (name : String)
    (hname : varidOf name = none)
    (hfh : ¬ (0 < (fhSafe (some fs)).errorCode ∧
      (fhSafe (some fs)).errorCode < 6))
    (hfl : (fixedleader (some fs) (some (mkIndex (fhSafe (some fs))))).data ≠ []) :
    ∃ arr, datatype (some fs) name none none = .short arr 9 := by
  rw [datatype_none_idx, datatypeFetch_eq, if_neg hfh, dtAfterIndex_derive]
  have hdne : (fixedleader (some fs)
      (some (⟨(fhSafe (some fs)).byteskip, (fhSafe (some fs)).addrOff,
        (fhSafe (some fs)).dataid, (fhSafe (some fs)).ensemble⟩ :
        FileIndex))).data ≠ [] := hfl
  refine ⟨_, dtAfterArrays_invalid fs name _ _ _ _ _ _ _ ?_ hname⟩
  simp only [List.isEmpty_iff, List.map_eq_nil_iff]
  rw [not_or]
  exact ⟨hdne, hdne⟩

theorem datatype_invalid_name_after_io_witness :
    varidOf ("bogus") = none ∧
      (fhSafe (some trailEns)).errorCode = 8 ∧
      ¬ (0 < (fhSafe (some trailEns)).errorCode ∧
        (fhSafe (some trailEns)).errorCode < 6) ∧
      (fixedleader (some trailEns) (some (mkIndex (fhSafe (some trailEns))))).data ≠ [] ∧
      ∃ arr, datatype (some trailEns) ("bogus") none none = .short arr 9 :=
  ⟨by decide, by decide, by decide, by decide,
   datatype_invalid_name_after_io trailEns ("bogus") (by decide) (by decide)
     (by decide)⟩

/-- C10: `datatype`'s return arity is not uniform.  With the same default
arguments: a failing `fileheader` (missing file) yields the bare
2-tuple `(array, 1)`; an invalid variable name yields `(array, 9)`; a
file whose first ensemble lacks the requested data-type id yields
`(array, 6)`; while a successful call yields the full 5-tuple
`(data, ensemble, cell_array, beam_array, error_code)` — so a caller
unpacking five values fails on the former inputs. -/
theorem datatype_return_arity_mixed :
    datatype none ("velocity") none none = .short [] 1 ∧
      datatype (some velFile) ("bogus") none none =
        .short [[[0, 0]], [[0, 0]]] 9 ∧
      datatype (some twoGood) ("velocity") none none =
        .short [[[-32768]], [[-32768]]] 6 ∧
      datatype (some velFile) ("velocity") none none =
        .full [[[256, 5]], [[256, 5]]] 2 [2, 2] [1, 1] 0 :=
  ⟨by decide, by decide, by decide, by decide⟩
